import Mathlib

/-!
Shallow embedding of the data-curation script `cldfbench_mamtasouthasia.py`
(repository `cldf-datasets/mamtasouthasia`).

The embedding models:
  * the label folder (`slug`, `TYPO_MAP`, `fold_name`),
  * the reference-table builders (`get_parameter_names`, `get_example_names`),
  * the sheet validator (`validate_sheet`),
  * the row extractor (`make_examples`, `assoc_value_examples`, `make_values`),
  * the cell normalizer of `cmd_download`
    (`fraction_to_str`, `float_to_fraction`, `cell_str`).

Python strings are Lean `String`s, Python `dict`s are association lists with
last-binding-wins lookup (`dictGet`), fallible code (Python `assert`,
`list.index`, indexing) returns `Except String _`, and Python floats are
modelled as rationals `ℚ`.  Unicode NFKD decomposition (an external library
call inside `slug`) is a parameter `nfkd : Char → List Char`; every theorem
that depends on it either quantifies over decompositions that are the
identity on ASCII characters (which NFKD is) or instantiates it on
ASCII-only strings where the identity decomposition `nfkd_ascii` agrees
with real NFKD.
-/

namespace Mamta

/-- ASCII whitespace as recognised by Python `str.split()` / `str.strip()`:
space, tab, newline, carriage return, vertical tab, form feed. -/
def pyIsSpace (c : Char) : Bool :=
  c == ' ' || c == '\t' || c == '\n' || c == '\r' || c.toNat == 11 || c.toNat == 12

/-- Python `c.isascii() and c.isalnum()`: exactly the characters
`0`-`9`, `A`-`Z`, `a`-`z`. -/
def pyIsAsciiAlnum (c : Char) : Bool :=
  decide ((48 ≤ c.toNat ∧ c.toNat ≤ 57) ∨ (65 ≤ c.toNat ∧ c.toNat ≤ 90) ∨
    (97 ≤ c.toNat ∧ c.toNat ≤ 122))

/-- Python `str.lower()` on a single character, restricted to ASCII (in
`slug` it is only ever applied to characters that passed the ASCII filter). -/
def pyLower (c : Char) : Char :=
  if 65 ≤ c.toNat ∧ c.toNat ≤ 90 then Char.ofNat (c.toNat + 32) else c

/-- Split a character list into maximal runs of non-whitespace characters,
as Python `str.split()` does (`acc` holds the current word, reversed). -/
def pyWordsAux : List Char → List Char → List (List Char)
  | [], acc => if acc.isEmpty then [] else [acc.reverse]
  | c :: cs, acc =>
      if pyIsSpace c then
        if acc.isEmpty then pyWordsAux cs [] else acc.reverse :: pyWordsAux cs []
      else
        pyWordsAux cs (c :: acc)

/-- Join words with single spaces (Python `' '.join(words)`). -/
def joinWords : List (List Char) → List Char
  | [] => []
  | [w] => w
  | w :: ws => w ++ ' ' :: joinWords ws

/-- Python `normalise_whitespace(s) = ' '.join(s.split()).strip()`. -/
def normalise_whitespace (s : String) : String :=
  String.mk (joinWords (pyWordsAux s.data []))

/-- Python `str.strip()` (used by the cell normalizer on text cells and by
the reference-table builders on identifier cells). -/
def pyStrip (s : String) : String :=
  String.mk (((s.data.dropWhile pyIsSpace).reverse.dropWhile pyIsSpace).reverse)

/-- Python `str.isnumeric()` restricted to ASCII digits (identifier cells in
the canonical sheet hold plain decimal numerals). -/
def pyIsNumeric (s : String) : Bool :=
  !s.data.isEmpty && s.data.all Char.isDigit

/-- Lookup in a Python `dict` represented as an association list in insertion
order: a later binding of the same key overwrites an earlier one. -/
def dictGet {α : Type} : List (String × α) → String → Option α
  | [], _ => none
  | p :: rest, k =>
      match dictGet rest k with
      | some v => some v
      | none => if p.1 = k then some p.2 else none

/-- The characters of `slug`: NFKD-decompose, keep ASCII alphanumerics,
lowercase.  `lowercase` mirrors the keyword argument of the Python `slug`. -/
def slugChars (nfkd : Char → List Char) (lowercase : Bool) (l : List Char) : List Char :=
  ((l.flatMap nfkd).filter pyIsAsciiAlnum).map (fun c => if lowercase then pyLower c else c)

/-- Python `slug(s, lowercase)`:
`''.join(c.lower() if lowercase else c for c in unicodedata.normalize('NFKD', s)
if c.isascii() and c.isalnum())`. -/
def slug_gen (nfkd : Char → List Char) (lowercase : Bool) (s : String) : String :=
  String.mk (slugChars nfkd lowercase s.data)

/-- Python `slug(s)` with the default `lowercase=True`. -/
def slug (nfkd : Char → List Char) (s : String) : String :=
  slug_gen nfkd true s

/-- The fixed typo-correction table `TYPO_MAP` of the source. -/
def TYPO_MAP : List (String × String) :=
  [ ("twelvth", "twelfth"),
    ("twentyth", "twentieth"),
    ("forthman", "fourthman"),
    ("forthwoman", "fourthwoman"),
    ("iate116ofthrpizza", "iate116ofthepizza"),
    ("thrice", "thricethreetimes"),
    ("forthtime", "fourtimes"),
    ("imethimthrice", "imethimthreetimes"),
    ("imethimforthtime", "imethimfourtimes"),
    ("twopairofsocks", "twopairsofsocks"),
    ("pairofsocksarelyinghere", "apairofsocksarelyinghere") ]

/-- Python `fold_name(name) = TYPO_MAP.get(slug(name), slug(name))`. -/
def fold_name (nfkd : Char → List Char) (name : String) : String :=
  match dictGet TYPO_MAP (slug nfkd name) with
  | some v => v
  | none => slug nfkd name

/-- Modelled from the spec: the NFKD decomposition used by `slug` is an
external Unicode-library call; on ASCII characters (the only characters
appearing in the concrete inputs of this development) NFKD is the
identity, which is all this instantiation provides. -/
def nfkd_ascii : Char → List Char := fun c => [c]

/-- A parameter entry of the canonical sheet: `ParameterRow = namedtuple('ParameterRow', 'id name')`. -/
structure ParameterRow where
  id : String
  name : String
deriving DecidableEq, Repr

/-- An example entry of the canonical sheet: `ExampleRow = namedtuple('ExampleRow', 'param_id translation')`. -/
structure ExampleRow where
  param_id : String
  translation : String
deriving DecidableEq, Repr

/-- Read a cell of a row; rows are lists of cell strings.  Out-of-range
access yields `""` (the CSV rows of one sheet all have the header's width). -/
def cellAt (row : List String) (i : Nat) : String :=
  row.getD i ""

/-- Python `get_parameter_names(data)`: rows of the canonical sheet whose
first column is numeric define `fold_name(label) ↦ (id, normalised label)`;
fails when `data` is empty, when no column is headed `Expressions`, or when
that column is the identifier column (the `assert name_col > 0`). -/
def get_parameter_names (nfkd : Char → List Char) (data : List (List String)) :
    Except String (List (String × ParameterRow)) :=
  match data with
  | [] => .error "IndexError: data[0]"
  | header :: rows =>
    match header.findIdx? (· == "Expressions") with
    | none => .error "ValueError: 'Expressions' is not in list"
    | some name_col =>
      if name_col = 0 then .error "AssertionError: name_col > 0" else
      .ok (rows.filterMap (fun row =>
        let id_ := pyStrip (cellAt row 0)
        if pyIsNumeric id_ then
          some (fold_name nfkd (cellAt row name_col),
                ⟨id_, normalise_whitespace (cellAt row name_col)⟩)
        else none))

/-- Python `get_example_names(data)`: rows whose first column starts with
the literal `"ex "` and has a non-empty remainder define
`fold_name(label) ↦ (remainder, normalised label)`. -/
def get_example_names (nfkd : Char → List Char) (data : List (List String)) :
    Except String (List (String × ExampleRow)) :=
  match data with
  | [] => .error "IndexError: data[0]"
  | header :: rows =>
    match header.findIdx? (· == "Expressions") with
    | none => .error "ValueError: 'Expressions' is not in list"
    | some name_col =>
      if name_col = 0 then .error "AssertionError: name_col > 0" else
      .ok (rows.filterMap (fun row =>
        let id_ := pyStrip (cellAt row 0)
        if id_.data.take 3 = ['e', 'x', ' '] ∧ id_.data.drop 3 ≠ [] then
          some (fold_name nfkd (cellAt row name_col),
                ⟨String.mk (id_.data.drop 3), normalise_whitespace (cellAt row name_col)⟩)
        else none))

/-- The fixed closed set of recognised section headers of `validate_sheet`
(copied verbatim from the source, two misspelled entries included). -/
def section_headers : List String :=
  [ "Cardinals (Values)",
    "Cardinals (Examples)",
    "Ordinals (Values)",
    "Ordinals (Examples)",
    "Fractions (Values)",
    "Fractions (Examples)",
    "Multiplicatives (Values)",
    "Multiplicatives (Examples)",
    "Aggregatives (Values)",
    "Aggregatives (Examples)",
    "Approximatives (Values)",
    "Approximatives (Examples)",
    "Collectives (Values)",
    "Collectives (Examples)",
    "Distributives (Values)",
    "Multipliatives (Examples)",
    "Restrictives (Values)",
    "Restrictives (Examples)",
    "Restrictive (Examples)" ]

/-- The inner `_is_good(name)` of `validate_sheet`: the folded key is a known
parameter, or a known example, or the exact text is a section header. -/
def is_good (nfkd : Char → List Char) (parameter_names : List (String × ParameterRow))
    (example_names : List (String × ExampleRow)) (name : String) : Bool :=
  (dictGet parameter_names (fold_name nfkd name)).isSome ||
  (dictGet example_names (fold_name nfkd name)).isSome ||
  section_headers.contains name

/-- The labels `validate_sheet` rejects: non-empty whitespace-normalised
label cells of the data rows that `is_good` refuses, in row order. -/
def unrecognised_labels (nfkd : Char → List Char)
    (parameter_names : List (String × ParameterRow))
    (example_names : List (String × ExampleRow))
    (name_col : Nat) (rows : List (List String)) : List String :=
  rows.filterMap (fun row =>
    let name := normalise_whitespace (cellAt row name_col)
    if name ≠ "" ∧ ¬ is_good nfkd parameter_names example_names name then some name
    else none)

/-- Python `validate_sheet(data, parameter_names, example_names)`: collect
every rejected label of the sheet, then `assert not errors, '\n'.join(errors)`. -/
def validate_sheet (nfkd : Char → List Char) (data : List (List String))
    (parameter_names : List (String × ParameterRow))
    (example_names : List (String × ExampleRow)) : Except String Unit :=
  match data with
  | [] => .error "IndexError: data[0]"
  | header :: rows =>
    match header.findIdx? (· == "Expressions") with
    | none => .error "ValueError: 'Expressions' is not in list"
    | some name_col =>
      let errors := unrecognised_labels nfkd parameter_names example_names name_col rows
      if errors.isEmpty then .ok ()
      else .error (String.intercalate "\n" errors)

/-- Python `enumerate` with a starting index. -/
def pyEnumFrom : Nat → List α → List (Nat × α)
  | _, [] => []
  | i, a :: l => (i, a) :: pyEnumFrom (i + 1) l

/-- Python `lookup_language(language_names, name, sheet_name)`: a mapped name
yields its identifier; a non-empty unmapped name yields a stderr diagnostic
and `None`; an empty name yields silent `None`.  The second component is the
list of diagnostics printed. -/
def lookup_language (language_names : List (String × String)) (name sheet_name : String) :
    Option String × List String :=
  match dictGet language_names name with
  | some language_id => (some language_id, [])
  | none =>
      if name ≠ "" then (none, [sheet_name ++ ": Unknown language: " ++ name])
      else (none, [])

/-- The `lg_cols` computation of `make_examples`: walk
`islice(enumerate(header), 1, None)`, skip the label column, keep mapped
columns, and collect the diagnostics of `lookup_language` in order. -/
def mk_lg_cols_aux (language_names : List (String × String)) (name_col : Nat)
    (sheet_name : String) : List (Nat × String) → List (Nat × String) × List String
  | [] => ([], [])
  | (i, name) :: rest =>
      let r := mk_lg_cols_aux language_names name_col sheet_name rest
      if i = name_col then r
      else
        match lookup_language language_names name sheet_name with
        | (some language_id, ds) => ((i, language_id) :: r.1, ds ++ r.2)
        | (none, ds) => (r.1, ds ++ r.2)

/-- `lg_cols` of `make_examples` (with diagnostics). -/
def mk_lg_cols (language_names : List (String × String)) (header : List String)
    (name_col : Nat) (sheet_name : String) : List (Nat × String) × List String :=
  mk_lg_cols_aux language_names name_col sheet_name ((pyEnumFrom 0 header).drop 1)

/-- `lg_cols` of `make_values`: the same columns, but looked up with
`language_names.get(name)` directly, so no diagnostic is ever printed. -/
def lg_cols_quiet (language_names : List (String × String)) (header : List String)
    (name_col : Nat) : List (Nat × String) :=
  ((pyEnumFrom 0 header).drop 1).filterMap (fun p =>
    if p.1 = name_col then none
    else (dictGet language_names p.2).map (fun language_id => (p.1, language_id)))

/-- An emitted row of the example table. -/
structure ExampleOut where
  ID : String
  Language_ID : String
  Primary_Text : String
  Translated_Text : String
  Parameter_ID : String
deriving DecidableEq, Repr

/-- An emitted row of the value table. -/
structure ValueOut where
  ID : String
  Language_ID : String
  Parameter_ID : String
  Value : String
  Example_IDs : List String
deriving DecidableEq, Repr

/-- The per-(row, column) emission of `make_examples`: skip empty and
placeholder `"-"` cells, otherwise build the example record, whose
identifier is `language_id ++ "-" ++ slug(label)` (plain `slug`, not
`fold_name`). -/
def example_emit (nfkd : Char → List Char) (name_col : Nat)
    (rp : List String × ExampleRow) (il : Nat × String) : Option ExampleOut :=
  let primary := normalise_whitespace (cellAt rp.1 il.1)
  if primary ≠ "" ∧ primary ≠ "-" then
    some ⟨il.2 ++ "-" ++ slug nfkd (cellAt rp.1 name_col), il.2, primary,
          rp.2.translation, rp.2.param_id⟩
  else none

/-- Python `make_examples(data, example_names, language_names, sheet_name)`.
Returns the emitted example rows (row order outer, column order inner) and
the stderr diagnostics of the column scan. -/
def make_examples (nfkd : Char → List Char) (data : List (List String))
    (example_names : List (String × ExampleRow))
    (language_names : List (String × String)) (sheet_name : String) :
    Except String (List ExampleOut × List String) :=
  match data with
  | [] => .error "IndexError: data[0]"
  | header :: rows =>
    match header.findIdx? (· == "Expressions") with
    | none => .error "ValueError: 'Expressions' is not in list"
    | some name_col =>
      let lg := mk_lg_cols language_names header name_col sheet_name
      let example_rows := rows.filterMap (fun row =>
        (dictGet example_names (fold_name nfkd (cellAt row name_col))).map
          (fun ex_row => (row, ex_row)))
      .ok (example_rows.flatMap (fun rp => lg.1.filterMap (example_emit nfkd name_col rp)),
           lg.2)

/-- Python `assoc_value_examples(examples)` combined with the later
`value_examples.get((language_id, param_id), ())`: the `defaultdict` loop
appends example identifiers in table order, so the list associated with a
key is exactly the identifiers of its examples in order (and `[]` models the
default `()`). -/
def assoc_value_examples (examples : List ExampleOut) : String × String → List String :=
  fun k => (examples.filter (fun e => e.Language_ID == k.1 && e.Parameter_ID == k.2)).map
    (fun e => e.ID)

/-- The per-(row, column) emission of `make_values`: skip empty and
placeholder `"-"` cells, otherwise build the value record with identifier
`param_id ++ "-" ++ language_id`. -/
def value_emit (value_examples : String × String → List String)
    (rp : List String × ParameterRow) (il : Nat × String) : Option ValueOut :=
  let value := normalise_whitespace (cellAt rp.1 il.1)
  if value ≠ "" ∧ value ≠ "-" then
    some ⟨rp.2.id ++ "-" ++ il.2, il.2, rp.2.id, value,
          value_examples (il.2, rp.2.id)⟩
  else none

/-- Python `make_values(data, parameter_names, language_names, value_examples)`.
Note the source iterates `for row in data`, header row included. -/
def make_values (nfkd : Char → List Char) (data : List (List String))
    (parameter_names : List (String × ParameterRow))
    (language_names : List (String × String))
    (value_examples : String × String → List String) :
    Except String (List ValueOut) :=
  match data with
  | [] => .error "IndexError: data[0]"
  | header :: _ =>
    match header.findIdx? (· == "Expressions") with
    | none => .error "ValueError: 'Expressions' is not in list"
    | some name_col =>
      let lg_cols := lg_cols_quiet language_names header name_col
      let parameter_rows := data.filterMap (fun row =>
        (dictGet parameter_names (fold_name nfkd (cellAt row name_col))).map
          (fun param_row => (row, param_row)))
      .ok (parameter_rows.flatMap (fun rp => lg_cols.filterMap (value_emit value_examples rp)))

/-- Python `int(x)` on a rational: truncation toward zero. -/
def pyInt (q : ℚ) : ℤ :=
  if 0 ≤ q then ⌊q⌋ else ⌈q⌉

/-- Python string `or`: the first operand unless it is falsy (empty). -/
def pyOrS (a b : String) : String :=
  if a = "" then b else a

/-- Python `_fraction_to_str(n, enum, denom)` of `cmd_download` (floats
modelled as rationals): the fraction string when `n` is within `1e-4` of the
ratio, the empty string otherwise. -/
def fraction_to_str (n : ℚ) (a b : ℕ) : String :=
  if |n - (a : ℚ) / (b : ℚ)| < 1 / 10000 then toString a ++ "/" ++ toString b
  else ""

/-- Python `_float_to_fraction(n)`: the `or`-chain over the fixed candidate
fractions, then `assert s, n`. -/
def float_to_fraction (n : ℚ) : Except String String :=
  let s :=
    pyOrS (fraction_to_str n 1 2)
      (pyOrS (fraction_to_str n 1 2)
        (pyOrS (fraction_to_str n 2 3)
          (pyOrS (fraction_to_str n 1 4)
            (pyOrS (fraction_to_str n 3 4)
              (pyOrS (fraction_to_str n 1 5)
                (pyOrS (fraction_to_str n 3 5)
                  (pyOrS (fraction_to_str n 2 6)
                    (pyOrS (fraction_to_str n 2 7)
                      (pyOrS (fraction_to_str n 3 7)
                        (pyOrS (fraction_to_str n 1 10)
                          (fraction_to_str n 1 16)))))))))))
  if s = "" then .error ("AssertionError: " ++ toString n) else .ok s

/-- A spreadsheet cell value as `_cell_str` distinguishes them: `None`, an
integer, a float (modelled as `ℚ`), a datetime (only its month and day
matter to the one handled format), or text. -/
inductive CellValue where
  | null
  | int (z : ℤ)
  | float (q : ℚ)
  | date (month day : Nat)
  | text (t : String)
deriving DecidableEq, Repr

/-- Python truthiness of a cell value (`if not cell.value`): `None`, `0`,
`0.0` and `""` are falsy; datetimes never are. -/
def pyFalsy : CellValue → Bool
  | .null => true
  | .int z => z == 0
  | .float q => q == 0
  | .date _ _ => false
  | .text t => t == ""

/-- Python `_cell_str(cell)` of `cmd_download`, taking the cell's value and
its declared `number_format`.  (The float-with-`General` branch returns
`str(value)`; its exact decimal rendering is immaterial to every claim and
is modelled as `toString` on `ℚ`.) -/
def cell_str (value : CellValue) (number_format : String) : Except String String :=
  if pyFalsy value then .ok ""
  else
    match value with
    | .null => .ok ""
    | .int z =>
        if number_format = "General" ∨ number_format = "# ?/?" then .ok (toString z)
        else .error ("AssertionError: " ++ number_format)
    | .float q =>
        if number_format = "General" then .ok (toString q)
        else if number_format = "# ?/?" then float_to_fraction q
        else if number_format = "# ??/16" then
          .ok (toString (pyInt (q * 16)) ++ "/16")
        else .error ("AssertionError: " ++ number_format)
    | .date m d =>
        if number_format = "m/d" then .ok (toString m ++ "/" ++ toString d)
        else .error ("AssertionError: " ++ number_format)
    | .text t => .ok (pyStrip t)

/-- The ordered candidate fractions of `_float_to_fraction` (the source
tries `1/2` twice in a row; the duplicate is dropped here and accounted for
in `float_to_fraction_eq_find`). -/
def frac_candidates : List (Nat × Nat) :=
  [(1, 2), (2, 3), (1, 4), (3, 4), (1, 5), (3, 5), (2, 6), (2, 7), (3, 7), (1, 10), (1, 16)]

/-- The `or`-chain of `_float_to_fraction` over an arbitrary candidate list. -/
def chainStr (n : ℚ) : List (Nat × Nat) → String
  | [] => ""
  | ab :: rest => pyOrS (fraction_to_str n ab.1 ab.2) (chainStr n rest)

/-- `true` iff the string contains no `-` (parameter identifiers are decimal
numerals and language identifiers are glottocodes, both dash-free; the dash
is the separator inside emitted identifiers). -/
def dash_free (s : String) : Bool :=
  decide (¬ '-' ∈ s.data)

instance {ε α : Type} [DecidableEq ε] [DecidableEq α] : DecidableEq (Except ε α) := fun a b =>
  match a, b with
  | .ok x, .ok y => if h : x = y then isTrue (by rw [h]) else isFalse (by simp [h])
  | .error x, .error y => if h : x = y then isTrue (by rw [h]) else isFalse (by simp [h])
  | .ok _, .error _ => isFalse (by simp)
  | .error _, .ok _ => isFalse (by simp)

/-- Decidable form of the tolerance test of `_fraction_to_str`. -/
def fracMatch (n : ℚ) (ab : Nat × Nat) : Bool :=
  decide (|n - (ab.1 : ℚ) / (ab.2 : ℚ)| < 1 / 10000)

/-! ## Theorems -/

/-- C5: given a canonical sheet defining parameter `"1"` with label `"one"`
and a family sheet whose column headed `"LangX"` (mapped to `LangX_ID`)
contains `"eka"` in the row labeled `"one"`, the value table is exactly the
claimed row `{ID: "1-LangX_ID", Language_ID: LangX_ID, Parameter_ID: "1",
Value: "eka", Example_IDs: []}` (so in particular it contains it). -/
theorem C5_round_trip_value :
    get_parameter_names nfkd_ascii [["ID", "Expressions"], ["1", "one"]] =
      Except.ok [("one", ⟨"1", "one"⟩)] ∧
    make_values nfkd_ascii [["", "Expressions", "LangX"], ["", "one", "eka"]]
      [("one", ⟨"1", "one"⟩)] [("LangX", "LangX_ID")] (assoc_value_examples []) =
      Except.ok [⟨"1-LangX_ID", "LangX_ID", "1", "eka", []⟩] :=
  ⟨by decide, by decide⟩

/-- C7 counterexample: the cell normalizer maps the integer `0` (with either
accepted display format) to the empty string, not to the decimal string
`"0"`: Python `if not cell.value` treats `0` as blank. -/
theorem C7_counterexample :
    cell_str (CellValue.int 0) "General" = Except.ok "" ∧
    cell_str (CellValue.int 0) "# ?/?" = Except.ok "" ∧
    (Except.ok "" : Except String String) ≠ Except.ok (toString (0 : ℤ)) :=
  ⟨by decide, by decide, by decide⟩

/-- C7 amended: for every nonzero integer-valued cell with display format
`"General"` or `"# ?/?"` the Cell Normalizer returns the decimal string of
the integer; the integer `0` is falsy in Python and is treated like a
null/blank cell, yielding the empty string. -/
theorem C7_int_to_decimal :
    (∀ z : ℤ, z ≠ 0 →
      cell_str (CellValue.int z) "General" = Except.ok (toString z) ∧
      cell_str (CellValue.int z) "# ?/?" = Except.ok (toString z)) ∧
    (∀ number_format : String, cell_str CellValue.null number_format = Except.ok "") ∧
    cell_str (CellValue.int 0) "General" = Except.ok "" := by
  refine ⟨?_, ?_, by decide⟩
  · intro z hz
    have hfalsy : pyFalsy (CellValue.int z) = false := by
      simp [pyFalsy, hz]
    constructor
    · unfold cell_str
      rw [hfalsy]
      simp
    · unfold cell_str
      rw [hfalsy]
      simp
  · intro number_format
    rfl

theorem C7_int_to_decimal_witness :
    cell_str (CellValue.int 17) "General" = Except.ok (toString (17 : ℤ)) ∧
    cell_str (CellValue.int 17) "# ?/?" = Except.ok (toString (17 : ℤ)) :=
  C7_int_to_decimal.1 17 (by decide)

lemma slash_ne_empty (x y : String) : x ++ "/" ++ y ≠ "" := by
  intro h
  have hlen := congrArg String.length h
  rw [String.length_append, String.length_append] at hlen
  have h1 : ("/" : String).length = 1 := rfl
  have h2 : ("" : String).length = 0 := rfl
  omega

lemma pyOrS_empty_right (a : String) : pyOrS a "" = a := by
  unfold pyOrS
  split <;> simp_all

lemma chainStr_eq_find (n : ℚ) (l : List (Nat × Nat)) :
    chainStr n l =
      match l.find? (fracMatch n) with
      | some ab => toString ab.1 ++ "/" ++ toString ab.2
      | none => "" := by
  induction l with
  | nil => rfl
  | cons ab rest ih =>
    by_cases h : fracMatch n ab
    · have hts : fraction_to_str n ab.1 ab.2 = toString ab.1 ++ "/" ++ toString ab.2 := by
        unfold fraction_to_str
        rw [if_pos (by simpa [fracMatch] using h)]
      rw [chainStr, hts, List.find?_cons_of_pos _ h]
      unfold pyOrS
      rw [if_neg (slash_ne_empty _ _)]
    · have hts : fraction_to_str n ab.1 ab.2 = "" := by
        unfold fraction_to_str
        rw [if_neg (by simpa [fracMatch] using h)]
      rw [chainStr, hts, List.find?_cons_of_neg _ (by simpa using h)]
      unfold pyOrS
      rw [if_pos rfl, ih]

lemma float_to_fraction_eq_chain (n : ℚ) :
    float_to_fraction n =
      (if chainStr n ((1, 2) :: frac_candidates) = "" then
        Except.error ("AssertionError: " ++ toString n)
      else Except.ok (chainStr n ((1, 2) :: frac_candidates))) := by
  unfold float_to_fraction
  simp only [chainStr, frac_candidates, pyOrS_empty_right]

lemma float_to_fraction_eq_find (n : ℚ) :
    float_to_fraction n =
      match frac_candidates.find? (fracMatch n) with
      | some ab => Except.ok (toString ab.1 ++ "/" ++ toString ab.2)
      | none => Except.error ("AssertionError: " ++ toString n) := by
  rw [float_to_fraction_eq_chain, chainStr_eq_find]
  have hdup : ((1, 2) :: frac_candidates).find? (fracMatch n) =
      frac_candidates.find? (fracMatch n) := by
    by_cases h : fracMatch n (1, 2)
    · rw [List.find?_cons_of_pos _ h,
        show frac_candidates.find? (fracMatch n) =
          ((1, 2) :: [(2, 3), (1, 4), (3, 4), (1, 5), (3, 5), (2, 6), (2, 7), (3, 7), (1, 10),
            (1, 16)]).find? (fracMatch n) from rfl,
        List.find?_cons_of_pos _ h]
    · rw [List.find?_cons_of_neg _ (by simpa using h)]
  rw [hdup]
  rcases hfind : frac_candidates.find? (fracMatch n) with _ | ab
  · simp
  · simp only []
    rw [if_neg (slash_ne_empty _ _)]

/-- C2 counterexample: at the floating value `0.0` with format `"# ?/?"` no
candidate fraction matches, yet the Cell Normalizer does not fail fatally:
Python `if not cell.value` treats `0.0` as blank and returns `""` before the
fraction search (which, called directly on `0`, would indeed fail). -/
theorem C2_counterexample :
    cell_str (CellValue.float 0) "# ?/?" = Except.ok "" ∧
    float_to_fraction 0 = Except.error ("AssertionError: " ++ toString (0 : ℚ)) := by
  refine ⟨by decide, ?_⟩
  rw [float_to_fraction_eq_find]
  have hnone : frac_candidates.find? (fracMatch 0) = none := by
    rw [List.find?_eq_none]
    intro ab hab
    fin_cases hab <;>
      · simp only [fracMatch, decide_eq_true_eq, abs_sub_lt_iff, not_and, not_lt]
        intro h
        norm_num
  rw [hnone]

/-- C2 amended: for every nonzero floating cell value with display format
`"# ?/?"`, the Cell Normalizer returns the string of the first fraction in
the ordered candidate list `1/2, 2/3, 1/4, 3/4, 1/5, 3/5, 2/6, 2/7, 3/7,
1/10, 1/16` whose ratio differs from the value by less than `1e-4`, and
fails fatally when no candidate matches; the value `0.0` is falsy and is
treated as a blank cell instead.  In particular `0.5` normalizes to `"1/2"`
and `0.6667` to `"2/3"`. -/
theorem C2_fraction_normalizer :
    (∀ q : ℚ, q ≠ 0 →
      cell_str (CellValue.float q) "# ?/?" =
        match frac_candidates.find? (fracMatch q) with
        | some ab => Except.ok (toString ab.1 ++ "/" ++ toString ab.2)
        | none => Except.error ("AssertionError: " ++ toString q)) ∧
    cell_str (CellValue.float ((1 : ℚ)/2)) "# ?/?" = Except.ok "1/2" ∧
    cell_str (CellValue.float ((6667 : ℚ)/10000)) "# ?/?" = Except.ok "2/3" := by
  have main : ∀ q : ℚ, q ≠ 0 →
      cell_str (CellValue.float q) "# ?/?" =
        match frac_candidates.find? (fracMatch q) with
        | some ab => Except.ok (toString ab.1 ++ "/" ++ toString ab.2)
        | none => Except.error ("AssertionError: " ++ toString q) := by
    intro q hq
    have hfalsy : pyFalsy (CellValue.float q) = false := by
      simp [pyFalsy, hq]
    unfold cell_str
    rw [hfalsy]
    simp only [Bool.false_eq_true, if_false]
    rw [if_neg (by decide), if_pos trivial, float_to_fraction_eq_find]
  refine ⟨main, ?_, ?_⟩
  · rw [main ((1 : ℚ)/2) (by norm_num)]
    have hpos : fracMatch ((1 : ℚ)/2) (1, 2) = true := by
      simp only [fracMatch, decide_eq_true_eq, abs_sub_lt_iff]
      constructor <;> norm_num
    have hfind : frac_candidates.find? (fracMatch ((1 : ℚ)/2)) = some (1, 2) := by
      rw [show frac_candidates = (1, 2) :: [(2, 3), (1, 4), (3, 4), (1, 5), (3, 5), (2, 6),
          (2, 7), (3, 7), (1, 10), (1, 16)] from rfl]
      rw [List.find?_cons_of_pos _ hpos]
    rw [hfind]
    decide
  · rw [main ((6667 : ℚ)/10000) (by norm_num)]
    have hneg : ¬ fracMatch ((6667 : ℚ)/10000) (1, 2) = true := by
      simp only [fracMatch, decide_eq_true_eq, abs_sub_lt_iff, not_and, not_lt]
      intro h
      norm_num at h
    have hpos : fracMatch ((6667 : ℚ)/10000) (2, 3) = true := by
      simp only [fracMatch, decide_eq_true_eq, abs_sub_lt_iff]
      constructor <;> norm_num
    have hfind : frac_candidates.find? (fracMatch ((6667 : ℚ)/10000)) = some (2, 3) := by
      rw [show frac_candidates = (1, 2) :: (2, 3) :: [(1, 4), (3, 4), (1, 5), (3, 5), (2, 6),
          (2, 7), (3, 7), (1, 10), (1, 16)] from rfl]
      rw [List.find?_cons_of_neg _ hneg, List.find?_cons_of_pos _ hpos]
    rw [hfind]
    decide

theorem C2_fraction_normalizer_witness :
    cell_str (CellValue.float ((1 : ℚ)/2)) "# ?/?" =
      match frac_candidates.find? (fracMatch ((1 : ℚ)/2)) with
      | some ab => Except.ok (toString ab.1 ++ "/" ++ toString ab.2)
      | none => Except.error ("AssertionError: " ++ toString ((1 : ℚ)/2)) :=
  C2_fraction_normalizer.1 ((1 : ℚ)/2) (by norm_num)

/-- C6 counterexample: at the floating value `0.97` with the 16ths format
the Cell Normalizer returns `"15/16"` (Python `int()` truncates
`0.97 * 16 = 15.52` toward zero), while `round(0.97 * 16) = 16`, so the
claimed `"<round(value*16)>/16"` would be `"16/16"`. -/
theorem C6_counterexample :
    cell_str (CellValue.float ((97 : ℚ)/100)) "# ??/16" = Except.ok "15/16" ∧
    round ((97 : ℚ)/100 * 16) = (16 : ℤ) := by
  constructor
  · have hfalsy : pyFalsy (CellValue.float ((97 : ℚ)/100)) = false := by
      simp only [pyFalsy, beq_eq_false_iff_ne, ne_eq]
      norm_num
    unfold cell_str
    rw [hfalsy]
    simp only [Bool.false_eq_true, if_false]
    rw [if_neg (by decide), if_neg (by decide), if_pos trivial]
    have hint : pyInt ((97 : ℚ)/100 * 16) = 15 := by
      unfold pyInt
      rw [if_pos (by norm_num)]
      rw [show (97 : ℚ)/100 * 16 = 388/25 by norm_num, Int.floor_eq_iff]
      norm_num
    rw [hint]
    decide
  · rw [round_eq, show (97 : ℚ)/100 * 16 + 1/2 = 801/50 by norm_num, Int.floor_eq_iff]
    norm_num

/-- C6 amended: for every nonzero floating cell value with the 16ths display
format the Cell Normalizer returns `"<int(value*16)>/16"` where the
numerator is `value*16` truncated toward zero (Python `int()`), not rounded;
truncation and rounding agree on exact multiples of `1/16`, as the second
conjunct shows. -/
theorem C6_sixteenths_truncated :
    (∀ q : ℚ, q ≠ 0 →
      cell_str (CellValue.float q) "# ??/16" =
        Except.ok (toString (pyInt (q * 16)) ++ "/16")) ∧
    (∀ k : Nat, k ≠ 0 →
      cell_str (CellValue.float ((k : ℚ)/16)) "# ??/16" =
        Except.ok (toString (k : ℤ) ++ "/16")) := by
  have main : ∀ q : ℚ, q ≠ 0 →
      cell_str (CellValue.float q) "# ??/16" =
        Except.ok (toString (pyInt (q * 16)) ++ "/16") := by
    intro q hq
    have hfalsy : pyFalsy (CellValue.float q) = false := by
      simp [pyFalsy, hq]
    unfold cell_str
    rw [hfalsy]
    simp only [Bool.false_eq_true, if_false]
    rw [if_neg (by decide), if_neg (by decide), if_pos trivial]
  refine ⟨main, ?_⟩
  intro k hk
  have hq : ((k : ℚ)/16) ≠ 0 :=
    div_ne_zero (Nat.cast_ne_zero.mpr hk) (by norm_num)
  rw [main _ hq]
  have hint : pyInt ((k : ℚ)/16 * 16) = (k : ℤ) := by
    rw [div_mul_cancel₀ _ (by norm_num : (16 : ℚ) ≠ 0)]
    unfold pyInt
    rw [if_pos (by positivity)]
    exact Int.floor_natCast k
  rw [hint]

theorem C6_sixteenths_truncated_witness :
    cell_str (CellValue.float ((5 : ℚ)/16)) "# ??/16" =
      Except.ok (toString ((5 : ℕ) : ℤ) ++ "/16") :=
  C6_sixteenths_truncated.2 5 (by decide)

lemma unrecognised_labels_eq_nil_iff (nfkd : Char → List Char)
    (p : List (String × ParameterRow)) (e : List (String × ExampleRow))
    (name_col : Nat) (rows : List (List String)) :
    unrecognised_labels nfkd p e name_col rows = [] ↔
      ∀ row ∈ rows, normalise_whitespace (cellAt row name_col) ≠ "" →
        is_good nfkd p e (normalise_whitespace (cellAt row name_col)) = true := by
  unfold unrecognised_labels
  rw [List.filterMap_eq_nil_iff]
  constructor
  · intro h row hrow hne
    have hr := h row hrow
    by_cases hg : is_good nfkd p e (normalise_whitespace (cellAt row name_col)) = true
    · exact hg
    · rw [if_pos ⟨hne, hg⟩] at hr
      simp at hr
  · intro h row hrow
    by_cases hne : normalise_whitespace (cellAt row name_col) = ""
    · exact if_neg (fun hc => hc.1 hne)
    · exact if_neg (fun hc => hc.2 (h row hrow hne))

lemma mem_unrecognised_labels (nfkd : Char → List Char)
    (p : List (String × ParameterRow)) (e : List (String × ExampleRow))
    (name_col : Nat) (rows : List (List String)) (name : String) :
    name ∈ unrecognised_labels nfkd p e name_col rows ↔
      (∃ row ∈ rows, name = normalise_whitespace (cellAt row name_col)) ∧
        name ≠ "" ∧ is_good nfkd p e name = false := by
  unfold unrecognised_labels
  rw [List.mem_filterMap]
  constructor
  · rintro ⟨row, hrow, hopt⟩
    by_cases hc : normalise_whitespace (cellAt row name_col) ≠ "" ∧
        ¬ is_good nfkd p e (normalise_whitespace (cellAt row name_col)) = true
    · rw [if_pos hc] at hopt
      have heq : normalise_whitespace (cellAt row name_col) = name := by
        injection hopt
      subst heq
      exact ⟨⟨row, hrow, rfl⟩, hc.1, by simpa using hc.2⟩
    · rw [if_neg hc] at hopt
      simp at hopt
  · rintro ⟨⟨row, hrow, rfl⟩, hne, hbad⟩
    exact ⟨row, hrow, by rw [if_pos ⟨hne, by simp [hbad]⟩]⟩

/-- C1: with a `Expressions` column at `name_col`, the validator accepts a
sheet iff every non-empty whitespace-normalised label cell of its data rows
is good (folded key in the parameter table, or in the example table, or
exact text a recognised section header); it collects the rejected labels of
the whole sheet, and when at least one exists it fails with the message
enumerating exactly those labels (the third conjunct characterises the
collected list: all of them and nothing else). -/
theorem C1_validator_gate :
    ∀ (nfkd : Char → List Char) (p : List (String × ParameterRow))
      (e : List (String × ExampleRow)) (header : List String)
      (rows : List (List String)) (name_col : Nat),
      header.findIdx? (· == "Expressions") = some name_col →
      ((validate_sheet nfkd (header :: rows) p e = Except.ok () ↔
          ∀ row ∈ rows, normalise_whitespace (cellAt row name_col) ≠ "" →
            is_good nfkd p e (normalise_whitespace (cellAt row name_col)) = true) ∧
        (unrecognised_labels nfkd p e name_col rows ≠ [] →
          validate_sheet nfkd (header :: rows) p e =
            Except.error
              (String.intercalate "\n" (unrecognised_labels nfkd p e name_col rows))) ∧
        (∀ name : String,
          name ∈ unrecognised_labels nfkd p e name_col rows ↔
            (∃ row ∈ rows, name = normalise_whitespace (cellAt row name_col)) ∧
              name ≠ "" ∧ is_good nfkd p e name = false)) := by
  intro nfkd p e header rows name_col hfind
  have hval : validate_sheet nfkd (header :: rows) p e =
      (if (unrecognised_labels nfkd p e name_col rows).isEmpty then Except.ok ()
       else Except.error
        (String.intercalate "\n" (unrecognised_labels nfkd p e name_col rows))) := by
    simp only [validate_sheet, hfind]
  refine ⟨?_, ?_, mem_unrecognised_labels nfkd p e name_col rows⟩
  · rw [hval, ← unrecognised_labels_eq_nil_iff nfkd p e name_col rows]
    by_cases hemp : unrecognised_labels nfkd p e name_col rows = []
    · rw [hemp]
      simp
    · rw [if_neg (by simp [List.isEmpty_iff, hemp])]
      simp [hemp]
  · intro hne
    rw [hval, if_neg (by simp [List.isEmpty_iff, hne])]

lemma mem_pyEnumFrom {α : Type} (l : List α) : ∀ (s j : Nat) (x : α),
    (j, x) ∈ pyEnumFrom s l ↔ s ≤ j ∧ l.get? (j - s) = some x := by
  induction l with
  | nil =>
    intro s j x
    simp [pyEnumFrom]
  | cons a t ih =>
    intro s j x
    simp only [pyEnumFrom, List.mem_cons, ih, Prod.mk.injEq]
    constructor
    · rintro (⟨rfl, rfl⟩ | ⟨hle, hget⟩)
      · simp
      · refine ⟨by omega, ?_⟩
        rw [show j - s = (j - (s + 1)) + 1 by omega]
        simpa using hget
    · rintro ⟨hle, hget⟩
      by_cases hj : j = s
      · subst hj
        rw [Nat.sub_self] at hget
        simp only [List.get?_cons_zero, Option.some.injEq] at hget
        exact Or.inl ⟨rfl, hget.symm⟩
      · right
        refine ⟨by omega, ?_⟩
        rw [show j - s = (j - (s + 1)) + 1 by omega] at hget
        simpa using hget

lemma lookup_language_some (langs : List (String × String)) (name sheet lid : String)
    (ds : List String) :
    lookup_language langs name sheet = (some lid, ds) → dictGet langs name = some lid := by
  unfold lookup_language
  rcases h : dictGet langs name with _ | v
  · by_cases hn : name ≠ "" <;> · intro heq; simp [hn] at heq
  · intro heq
    simpa using congrArg Prod.fst heq

lemma mk_lg_cols_aux_mem_cols (langs : List (String × String)) (name_col : Nat)
    (sheet : String) :
    ∀ (pl : List (Nat × String)) (il : Nat × String),
      il ∈ (mk_lg_cols_aux langs name_col sheet pl).1 →
        ∃ name, (il.1, name) ∈ pl ∧ il.1 ≠ name_col ∧ dictGet langs name = some il.2 := by
  intro pl
  induction pl with
  | nil =>
    intro il h
    simp [mk_lg_cols_aux] at h
  | cons p rest ih =>
    intro il h
    obtain ⟨i, name⟩ := p
    rw [mk_lg_cols_aux] at h
    by_cases hi : i = name_col
    · rw [if_pos hi] at h
      obtain ⟨nm, hmem, hne, hget⟩ := ih il h
      exact ⟨nm, List.mem_cons_of_mem _ hmem, hne, hget⟩
    · rw [if_neg hi] at h
      rcases hlk : lookup_language langs name sheet with ⟨olid, ds⟩
      rw [hlk] at h
      cases olid with
      | none =>
        obtain ⟨nm, hmem, hne, hget⟩ := ih il h
        exact ⟨nm, List.mem_cons_of_mem _ hmem, hne, hget⟩
      | some lid =>
        rcases List.mem_cons.mp h with h1 | h2
        · subst h1
          exact ⟨name, List.mem_cons_self _ _, hi, lookup_language_some langs name sheet lid ds hlk⟩
        · obtain ⟨nm, hmem, hne, hget⟩ := ih il h2
          exact ⟨nm, List.mem_cons_of_mem _ hmem, hne, hget⟩

lemma mk_lg_cols_aux_mem_diag (langs : List (String × String)) (name_col : Nat)
    (sheet : String) :
    ∀ (pl : List (Nat × String)) (j : Nat) (name : String),
      (j, name) ∈ pl → j ≠ name_col → dictGet langs name = none → name ≠ "" →
        (sheet ++ ": Unknown language: " ++ name) ∈ (mk_lg_cols_aux langs name_col sheet pl).2 := by
  intro pl
  induction pl with
  | nil =>
    intro j name h
    simp at h
  | cons p rest ih =>
    intro j name hmem hne hget hname
    obtain ⟨i, nm⟩ := p
    rw [mk_lg_cols_aux]
    rcases List.mem_cons.mp hmem with h1 | h2
    · obtain ⟨hj, hnm⟩ : j = i ∧ name = nm := by
        have h1' := h1
        rw [Prod.mk.injEq] at h1'
        exact h1'
      subst hj
      subst hnm
      rw [if_neg hne]
      have hlk : lookup_language langs name sheet =
          (none, [sheet ++ ": Unknown language: " ++ name]) := by
        simp only [lookup_language, hget]
        rw [if_pos hname]
      rw [hlk]
      show sheet ++ ": Unknown language: " ++ name ∈
        (sheet ++ ": Unknown language: " ++ name) :: (mk_lg_cols_aux langs name_col sheet rest).2
      exact List.mem_cons_self _ _
    · have hrec := ih j name h2 hne hget hname
      by_cases hi : i = name_col
      · rw [if_pos hi]
        exact hrec
      · rw [if_neg hi]
        rcases hlk : lookup_language langs nm sheet with ⟨olid, ds⟩
        cases olid with
        | none =>
          show _ ∈ ds ++ (mk_lg_cols_aux langs name_col sheet rest).2
          exact List.mem_append_right _ hrec
        | some lid =>
          show _ ∈ ds ++ (mk_lg_cols_aux langs name_col sheet rest).2
          exact List.mem_append_right _ hrec

lemma lg_cols_quiet_mem (langs : List (String × String)) (header : List String)
    (name_col : Nat) (il : Nat × String) :
    il ∈ lg_cols_quiet langs header name_col →
      ∃ name, (il.1, name) ∈ (pyEnumFrom 0 header).drop 1 ∧ il.1 ≠ name_col ∧
        dictGet langs name = some il.2 := by
  unfold lg_cols_quiet
  intro h
  obtain ⟨p, hp, hopt⟩ := List.mem_filterMap.mp h
  obtain ⟨i, name⟩ := p
  by_cases hi : i = name_col
  · rw [if_pos hi] at hopt
    simp at hopt
  · rw [if_neg hi] at hopt
    rcases hd : dictGet langs name with _ | lid
    · rw [hd] at hopt
      simp at hopt
    · rw [hd] at hopt
      simp only [Option.map_some'] at hopt
      obtain rfl : (i, lid) = il := by injection hopt
      exact ⟨name, hp, hi, hd⟩

/-- C9: a non-label column whose header text is non-empty but absent from
the language map produces the `Unknown language` diagnostic on the error
stream of `make_examples`, is excluded from the language columns of both
emitters (so no value or example is extracted from it), and neither
`make_examples` nor `make_values` fails because of it. -/
theorem C9_unknown_language_column :
    ∀ (nfkd : Char → List Char) (header : List String) (rows : List (List String))
      (p : List (String × ParameterRow)) (e : List (String × ExampleRow))
      (langs : List (String × String)) (sheet : String) (name_col j : Nat) (cname : String)
      (ve : String × String → List String),
      header.findIdx? (· == "Expressions") = some name_col →
      header.get? j = some cname → 1 ≤ j → j ≠ name_col →
      cname ≠ "" → dictGet langs cname = none →
      ((∃ exs ds, make_examples nfkd (header :: rows) e langs sheet = Except.ok (exs, ds) ∧
          (sheet ++ ": Unknown language: " ++ cname) ∈ ds) ∧
        (∀ lid, (j, lid) ∉ (mk_lg_cols langs header name_col sheet).1) ∧
        (∀ lid, (j, lid) ∉ lg_cols_quiet langs header name_col) ∧
        (∃ vals, make_values nfkd (header :: rows) p langs ve = Except.ok vals)) := by
  intro nfkd header rows p e langs sheet name_col j cname ve hfind hget hj1 hjn hcn hnone
  obtain ⟨h0, tl, rfl⟩ : ∃ h0 tl, header = h0 :: tl := by
    cases header with
    | nil => simp at hget
    | cons h0 tl => exact ⟨h0, tl, rfl⟩
  have henum : (pyEnumFrom 0 (h0 :: tl)).drop 1 = pyEnumFrom 1 tl := rfl
  have htl : tl.get? (j - 1) = some cname := by
    have : (h0 :: tl).get? ((j - 1) + 1) = some cname := by
      rw [show (j - 1) + 1 = j by omega]
      exact hget
    simpa using this
  have hmem_enum : (j, cname) ∈ pyEnumFrom 1 tl := by
    rw [mem_pyEnumFrom]
    exact ⟨hj1, htl⟩
  have huniq : ∀ name, (j, name) ∈ pyEnumFrom 1 tl → name = cname := by
    intro name hn
    have hsome := ((mem_pyEnumFrom tl 1 j name).mp hn).2
    rw [htl] at hsome
    injection hsome with hsome'
    exact hsome'.symm
  refine ⟨?_, ?_, ?_, ?_⟩
  · have hme : make_examples nfkd ((h0 :: tl) :: rows) e langs sheet =
        Except.ok
          ((rows.filterMap (fun row =>
              (dictGet e (fold_name nfkd (cellAt row name_col))).map
                (fun ex_row => (row, ex_row)))).flatMap
            (fun rp => ((mk_lg_cols langs (h0 :: tl) name_col sheet).1).filterMap
              (example_emit nfkd name_col rp)),
           (mk_lg_cols langs (h0 :: tl) name_col sheet).2) := by
      simp only [make_examples, hfind]
    refine ⟨_, _, hme, ?_⟩
    unfold mk_lg_cols
    rw [henum]
    exact mk_lg_cols_aux_mem_diag langs name_col sheet (pyEnumFrom 1 tl) j cname
      hmem_enum hjn hnone hcn
  · intro lid hmem
    obtain ⟨name, hin, _, hd⟩ :=
      mk_lg_cols_aux_mem_cols langs name_col sheet ((pyEnumFrom 0 (h0 :: tl)).drop 1)
        (j, lid) hmem
    rw [henum] at hin
    rw [huniq name hin] at hd
    rw [hnone] at hd
    cases hd
  · intro lid hmem
    obtain ⟨name, hin, _, hd⟩ := lg_cols_quiet_mem langs (h0 :: tl) name_col (j, lid) hmem
    rw [henum] at hin
    rw [huniq name hin] at hd
    rw [hnone] at hd
    cases hd
  · have hmv : make_values nfkd ((h0 :: tl) :: rows) p langs ve =
        Except.ok ((((h0 :: tl) :: rows).filterMap (fun row =>
          (dictGet p (fold_name nfkd (cellAt row name_col))).map
            (fun param_row => (row, param_row)))).flatMap
          (fun rp => (lg_cols_quiet langs (h0 :: tl) name_col).filterMap
            (value_emit ve rp))) := by
      simp only [make_values, hfind]
    exact ⟨_, hmv⟩

theorem C9_unknown_language_column_witness :
    ∃ exs ds,
      make_examples nfkd_ascii [["ID", "Expressions", "Mystery"]]
        ([] : List (String × ExampleRow)) ([] : List (String × String)) "S" =
        Except.ok (exs, ds) ∧
      ("S" ++ ": Unknown language: " ++ "Mystery") ∈ ds :=
  (C9_unknown_language_column nfkd_ascii ["ID", "Expressions", "Mystery"] []
    ([] : List (String × ParameterRow)) ([] : List (String × ExampleRow))
    ([] : List (String × String)) "S" 1 2 "Mystery" (fun _ => [])
    (by decide) (by decide) (by decide) (by decide) (by decide) (by decide)).1

/-- C10: every emitted example row's identifier is
`Language_ID ++ "-" ++ slug(label)` — the plain slug of the row's original
label text, without the typo-correction table — while the membership test
that selected the row used the typo-corrected `fold_name` key.  The second
conjunct instantiates this: `"thrice"` and `"thrice (three times)"` fold to
the same key (the first only via the typo correction), both match the same
example template, and they yield the distinct identifiers `"LX-thrice"`
(derived from the misspelled label) and `"LX-thricethreetimes"`. -/
theorem C10_example_id_uses_plain_slug :
    (∀ (nfkd : Char → List Char) (header : List String) (rows : List (List String))
      (e : List (String × ExampleRow)) (langs : List (String × String))
      (sheet : String) (name_col : Nat) (exs : List ExampleOut) (ds : List String),
      header.findIdx? (· == "Expressions") = some name_col →
      make_examples nfkd (header :: rows) e langs sheet = Except.ok (exs, ds) →
      ∀ ex ∈ exs, ∃ row ∈ rows, ∃ exr : ExampleRow,
        dictGet e (fold_name nfkd (cellAt row name_col)) = some exr ∧
        ex.ID = ex.Language_ID ++ "-" ++ slug nfkd (cellAt row name_col) ∧
        ex.Translated_Text = exr.translation ∧ ex.Parameter_ID = exr.param_id) ∧
    (fold_name nfkd_ascii "thrice" = fold_name nfkd_ascii "thrice (three times)" ∧
      slug nfkd_ascii "thrice" ≠ slug nfkd_ascii "thrice (three times)" ∧
      get_example_names nfkd_ascii [["ID", "Expressions"], ["ex 1", "thrice (three times)"]] =
        Except.ok [("thricethreetimes", ⟨"1", "thrice (three times)"⟩)] ∧
      make_examples nfkd_ascii
        [["", "Expressions", "LangX"], ["", "thrice", "aaa"],
          ["", "thrice (three times)", "bbb"]]
        [("thricethreetimes", ⟨"1", "thrice (three times)"⟩)] [("LangX", "LX")] "F" =
        Except.ok ([⟨"LX-thrice", "LX", "aaa", "thrice (three times)", "1"⟩,
          ⟨"LX-thricethreetimes", "LX", "bbb", "thrice (three times)", "1"⟩], []) ∧
      ("LX-thrice" : String) ≠ "LX-thricethreetimes") := by
  constructor
  · intro nfkd header rows e langs sheet name_col exs ds hfind hmk ex hex
    have hme : make_examples nfkd (header :: rows) e langs sheet =
        Except.ok
          ((rows.filterMap (fun row =>
              (dictGet e (fold_name nfkd (cellAt row name_col))).map
                (fun ex_row => (row, ex_row)))).flatMap
            (fun rp => ((mk_lg_cols langs header name_col sheet).1).filterMap
              (example_emit nfkd name_col rp)),
          (mk_lg_cols langs header name_col sheet).2) := by
      simp only [make_examples, hfind]
    rw [hme] at hmk
    injection hmk with hpair
    have hE := congrArg Prod.fst hpair
    simp only [] at hE
    rw [← hE] at hex
    obtain ⟨rp, hrp, hcol⟩ := List.mem_flatMap.mp hex
    obtain ⟨row, hrow, hopt⟩ := List.mem_filterMap.mp hrp
    rcases hd : dictGet e (fold_name nfkd (cellAt row name_col)) with _ | exr
    · rw [hd] at hopt
      simp at hopt
    · rw [hd] at hopt
      simp only [Option.map_some'] at hopt
      obtain rfl : (row, exr) = rp := by injection hopt
      obtain ⟨il, hil, hemit⟩ := List.mem_filterMap.mp hcol
      unfold example_emit at hemit
      by_cases hcond : normalise_whitespace (cellAt row il.1) ≠ "" ∧
          normalise_whitespace (cellAt row il.1) ≠ "-"
      · rw [if_pos hcond] at hemit
        have heq := Option.some.inj hemit
        subst heq
        exact ⟨row, hrow, exr, hd, rfl, rfl, rfl⟩
      · rw [if_neg hcond] at hemit
        simp at hemit
  · refine ⟨by decide, by decide, by decide, by decide, by decide⟩

theorem C10_example_id_uses_plain_slug_witness :
    ∃ row ∈ [["", "thrice", "aaa"], ["", "thrice (three times)", "bbb"]],
      ∃ exr : ExampleRow,
        dictGet [("thricethreetimes", (⟨"1", "thrice (three times)"⟩ : ExampleRow))]
          (fold_name nfkd_ascii (cellAt row 1)) = some exr ∧
        (⟨"LX-thrice", "LX", "aaa", "thrice (three times)", "1"⟩ : ExampleOut).ID =
          (⟨"LX-thrice", "LX", "aaa", "thrice (three times)", "1"⟩ : ExampleOut).Language_ID ++
            "-" ++ slug nfkd_ascii (cellAt row 1) ∧
        (⟨"LX-thrice", "LX", "aaa", "thrice (three times)", "1"⟩ : ExampleOut).Translated_Text =
          exr.translation ∧
        (⟨"LX-thrice", "LX", "aaa", "thrice (three times)", "1"⟩ : ExampleOut).Parameter_ID =
          exr.param_id :=
  C10_example_id_uses_plain_slug.1 nfkd_ascii ["", "Expressions", "LangX"]
    [["", "thrice", "aaa"], ["", "thrice (three times)", "bbb"]]
    [("thricethreetimes", ⟨"1", "thrice (three times)"⟩)] [("LangX", "LX")] "F" 1
    [⟨"LX-thrice", "LX", "aaa", "thrice (three times)", "1"⟩,
      ⟨"LX-thricethreetimes", "LX", "bbb", "thrice (three times)", "1"⟩] []
    (by decide) (by decide)
    ⟨"LX-thrice", "LX", "aaa", "thrice (three times)", "1"⟩ (by decide)

/-- C3 counterexample: a canonical sheet can define the same folded key both
as a parameter (row id `"1"`) and as an example template (row id `"ex 1"`);
a family sheet with that label passes the validator, and for its single
(data row, language column) pair the Row Extractor emits BOTH one example
row and one value row. -/
theorem C3_counterexample :
    get_parameter_names nfkd_ascii [["ID", "Expressions"], ["1", "one"], ["ex 1", "one"]] =
      Except.ok [("one", ⟨"1", "one"⟩)] ∧
    get_example_names nfkd_ascii [["ID", "Expressions"], ["1", "one"], ["ex 1", "one"]] =
      Except.ok [("one", ⟨"1", "one"⟩)] ∧
    validate_sheet nfkd_ascii [["", "Expressions", "LangX"], ["", "one", "eka"]]
      [("one", ⟨"1", "one"⟩)] [("one", ⟨"1", "one"⟩)] = Except.ok () ∧
    make_examples nfkd_ascii [["", "Expressions", "LangX"], ["", "one", "eka"]]
      [("one", ⟨"1", "one"⟩)] [("LangX", "LX")] "Fam" =
      Except.ok ([⟨"LX-one", "LX", "eka", "one", "1"⟩], []) ∧
    make_values nfkd_ascii [["", "Expressions", "LangX"], ["", "one", "eka"]]
      [("one", ⟨"1", "one"⟩)] [("LangX", "LX")]
      (assoc_value_examples [⟨"LX-one", "LX", "eka", "one", "1"⟩]) =
      Except.ok [⟨"1-LX", "LX", "1", "eka", ["LX-one"]⟩] :=
  ⟨by decide, by decide, by decide, by decide, by decide⟩

/-- C3 amended: provided no folded key is present in both the parameter
table and the example table, a validator-accepted sheet row can never feed
both extractors: at any (row, column) pair, the per-pair emissions of
`make_values` and `make_examples` (each an `Option`, hence each zero or one
row) are never simultaneously `some`.  Without that disjointness proviso the
claim fails (`C3_counterexample`). -/
theorem C3_value_example_exclusive :
    ∀ (nfkd : Char → List Char) (p : List (String × ParameterRow))
      (e : List (String × ExampleRow)) (data : List (List String)) (name_col : Nat)
      (row : List String) (il : Nat × String) (ve : String × String → List String),
      (∀ k, (dictGet p k).isSome = true → (dictGet e k).isSome = true → False) →
      validate_sheet nfkd data p e = Except.ok () →
      row ∈ data →
      ¬(((dictGet p (fold_name nfkd (cellAt row name_col))).bind
            (fun pr => value_emit ve (row, pr) il)).isSome = true ∧
        ((dictGet e (fold_name nfkd (cellAt row name_col))).bind
            (fun exr => example_emit nfkd name_col (row, exr) il)).isSome = true) := by
  intro nfkd p e data name_col row il ve hdisj _ _
  rintro ⟨h1, h2⟩
  rcases hp : dictGet p (fold_name nfkd (cellAt row name_col)) with _ | pr
  · rw [hp] at h1
    simp at h1
  · rcases he : dictGet e (fold_name nfkd (cellAt row name_col)) with _ | exr
    · rw [he] at h2
      simp at h2
    · exact hdisj _ (by rw [hp]; rfl) (by rw [he]; rfl)

theorem C3_value_example_exclusive_witness :
    ¬(((dictGet [("one", (⟨"1", "one"⟩ : ParameterRow))]
          (fold_name nfkd_ascii (cellAt ["", "one", "eka"] 1))).bind
        (fun pr => value_emit (fun _ => []) (["", "one", "eka"], pr) (2, "LX"))).isSome = true ∧
      ((dictGet [("oneex", (⟨"1", "one (ex)"⟩ : ExampleRow))]
          (fold_name nfkd_ascii (cellAt ["", "one", "eka"] 1))).bind
        (fun exr => example_emit nfkd_ascii 1 (["", "one", "eka"], exr) (2, "LX"))).isSome = true) :=
  C3_value_example_exclusive nfkd_ascii [("one", ⟨"1", "one"⟩)] [("oneex", ⟨"1", "one (ex)"⟩)]
    [["", "Expressions", "LangX"], ["", "one", "eka"]] 1 ["", "one", "eka"] (2, "LX")
    (fun _ => [])
    (by
      intro k h1 h2
      have e1 : k = "one" := by
        by_contra hne
        simp [dictGet, Ne.symm hne] at h1
      have e2 : k = "oneex" := by
        by_contra hne
        simp [dictGet, Ne.symm hne] at h2
      rw [e1] at e2
      exact absurd e2 (by decide))
    (by decide) (by decide)

theorem C1_validator_gate_witness :
    validate_sheet nfkd_ascii [["ID", "Expressions"], ["", "blah blah"]]
      [("one", ⟨"1", "one"⟩)] ([] : List (String × ExampleRow)) =
      Except.error (String.intercalate "\n" (unrecognised_labels nfkd_ascii
        [("one", ⟨"1", "one"⟩)] ([] : List (String × ExampleRow)) 1 [["", "blah blah"]])) :=
  (C1_validator_gate nfkd_ascii [("one", ⟨"1", "one"⟩)] ([] : List (String × ExampleRow))
    ["ID", "Expressions"] [["", "blah blah"]] 1 (by decide)).2.1 (by decide)

lemma append_cons_inj {x : Char} : ∀ (l1 l2 t1 t2 : List Char), x ∉ l1 → x ∉ l2 →
    l1 ++ x :: t1 = l2 ++ x :: t2 → l1 = l2 ∧ t1 = t2 := by
  intro l1
  induction l1 with
  | nil =>
    intro l2 t1 t2 _ h2 h
    cases l2 with
    | nil =>
      simp only [List.nil_append, List.cons.injEq, true_and] at h
      exact ⟨rfl, h⟩
    | cons y l2' =>
      simp only [List.nil_append, List.cons_append, List.cons.injEq] at h
      exfalso
      apply h2
      rw [← h.1]
      exact List.mem_cons_self _ _
  | cons a l1' ih =>
    intro l2 t1 t2 h1 h2 h
    cases l2 with
    | nil =>
      simp only [List.cons_append, List.nil_append, List.cons.injEq] at h
      exfalso
      apply h1
      rw [← h.1]
      exact List.mem_cons_self _ _
    | cons b l2' =>
      simp only [List.cons_append, List.cons.injEq] at h
      obtain ⟨hab, hrest⟩ := h
      have hr := ih l2' t1 t2 (fun hm => h1 (List.mem_cons_of_mem _ hm))
        (fun hm => h2 (List.mem_cons_of_mem _ hm)) hrest
      exact ⟨by rw [hab, hr.1], hr.2⟩

lemma dash_append_inj (a b a' b' : String) (ha : dash_free a = true)
    (ha' : dash_free a' = true) (h : a ++ "-" ++ b = a' ++ "-" ++ b') :
    a = a' ∧ b = b' := by
  have hdash : ("-" : String).data = ['-'] := rfl
  have hdata : a.data ++ '-' :: b.data = a'.data ++ '-' :: b'.data := by
    have h2 := congrArg String.data h
    simpa [String.data_append, hdash] using h2
  have hna : '-' ∉ a.data := by simpa [dash_free] using ha
  have hna' : '-' ∉ a'.data := by simpa [dash_free] using ha'
  obtain ⟨h1, h2⟩ := append_cons_inj a.data a'.data b.data b'.data hna hna' hdata
  exact ⟨String.ext h1, String.ext h2⟩

lemma nodup_map_filterMap_single {β γ : Type}
    (g : γ → String) (ck : β → String) (key : String → String) :
    ∀ (cols : List β) (f' : β → Option γ),
      (cols.map ck).Nodup →
      (∀ c ∈ cols, ∀ x, f' c = some x → g x = key (ck c)) →
      (∀ c ∈ cols, ∀ c' ∈ cols, key (ck c) = key (ck c') → ck c = ck c') →
      ((cols.filterMap f').map g).Nodup := by
  intro cols
  induction cols with
  | nil =>
    intro f' _ _ _
    simp
  | cons c cs ih =>
    intro f' hcol hval hinj
    have hc : ck c ∉ cs.map ck ∧ (cs.map ck).Nodup := by
      rw [List.map_cons, List.nodup_cons] at hcol
      exact hcol
    rcases hf : f' c with _ | x
    · rw [List.filterMap_cons_none hf]
      exact ih f' hc.2 (fun c' h x hx => hval c' (List.mem_cons_of_mem _ h) x hx)
        (fun c1 h1 c2 h2 he =>
          hinj c1 (List.mem_cons_of_mem _ h1) c2 (List.mem_cons_of_mem _ h2) he)
    · rw [List.filterMap_cons_some hf, List.map_cons, List.nodup_cons]
      constructor
      · intro hmem
        obtain ⟨y, hy, hgy⟩ := List.mem_map.mp hmem
        obtain ⟨c', hc', hfc'⟩ := List.mem_filterMap.mp hy
        have h1 : g x = key (ck c) := hval c (List.mem_cons_self _ _) x hf
        have h2 : g y = key (ck c') := hval c' (List.mem_cons_of_mem _ hc') y hfc'
        have hkey : key (ck c) = key (ck c') := by rw [← h1, ← h2, hgy]
        have hck := hinj c (List.mem_cons_self _ _) c' (List.mem_cons_of_mem _ hc') hkey
        apply hc.1
        rw [hck]
        exact List.mem_map_of_mem ck hc'
      · exact ih f' hc.2 (fun c' h x hx => hval c' (List.mem_cons_of_mem _ h) x hx)
          (fun c1 h1 c2 h2 he =>
            hinj c1 (List.mem_cons_of_mem _ h1) c2 (List.mem_cons_of_mem _ h2) he)

lemma nodup_map_flatMap_filterMap {α β γ : Type}
    (g : γ → String) (rk : α → String) (ck : β → String)
    (mkid : String → String → String) :
    ∀ (rows : List α) (cols : List β) (f : α → β → Option γ),
      (rows.map rk).Nodup → (cols.map ck).Nodup →
      (∀ r ∈ rows, ∀ c ∈ cols, ∀ x, f r c = some x → g x = mkid (rk r) (ck c)) →
      (∀ r ∈ rows, ∀ r' ∈ rows, ∀ c ∈ cols, ∀ c' ∈ cols,
        mkid (rk r) (ck c) = mkid (rk r') (ck c') → rk r = rk r' ∧ ck c = ck c') →
      ((rows.flatMap (fun r => cols.filterMap (f r))).map g).Nodup := by
  intro rows
  induction rows with
  | nil =>
    intro cols f _ _ _ _
    simp
  | cons r rs ih =>
    intro cols f hrow hcol hval hinj
    have hr : rk r ∉ rs.map rk ∧ (rs.map rk).Nodup := by
      rw [List.map_cons, List.nodup_cons] at hrow
      exact hrow
    rw [List.flatMap_cons, List.map_append]
    refine List.nodup_append.mpr ⟨?_, ?_, ?_⟩
    · refine nodup_map_filterMap_single g ck (mkid (rk r)) cols (f r) hcol
        (fun c hc x hx => hval r (List.mem_cons_self _ _) c hc x hx)
        (fun c1 h1 c2 h2 he =>
          (hinj r (List.mem_cons_self _ _) r (List.mem_cons_self _ _) c1 h1 c2 h2 he).2)
    · exact ih cols f hr.2 hcol
        (fun r' h c hc x hx => hval r' (List.mem_cons_of_mem _ h) c hc x hx)
        (fun r1 h1 r2 h2 c1 hc1 c2 hc2 he =>
          hinj r1 (List.mem_cons_of_mem _ h1) r2 (List.mem_cons_of_mem _ h2) c1 hc1 c2 hc2 he)
    · intro a ha ha'
      obtain ⟨x, hx, hgx⟩ := List.mem_map.mp ha
      obtain ⟨c, hcm, hfc⟩ := List.mem_filterMap.mp hx
      obtain ⟨y, hy, hgy⟩ := List.mem_map.mp ha'
      obtain ⟨r', hr', hyc⟩ := List.mem_flatMap.mp hy
      obtain ⟨c', hc', hfc'⟩ := List.mem_filterMap.mp hyc
      have h1 : g x = mkid (rk r) (ck c) := hval r (List.mem_cons_self _ _) c hcm x hfc
      have h2 : g y = mkid (rk r') (ck c') :=
        hval r' (List.mem_cons_of_mem _ hr') c' hc' y hfc'
      have hkey : mkid (rk r) (ck c) = mkid (rk r') (ck c') := by
        rw [← h1, ← h2, hgx, hgy]
      have hrk := (hinj r (List.mem_cons_self _ _) r' (List.mem_cons_of_mem _ hr')
        c hcm c' hc' hkey).1
      apply hr.1
      rw [hrk]
      exact List.mem_map_of_mem rk hr'

lemma value_emit_id (ve : String × String → List String)
    (rp : List String × ParameterRow) (il : Nat × String) (v : ValueOut) :
    value_emit ve rp il = some v → v.ID = rp.2.id ++ "-" ++ il.2 := by
  unfold value_emit
  by_cases hc : normalise_whitespace (cellAt rp.1 il.1) ≠ "" ∧
      normalise_whitespace (cellAt rp.1 il.1) ≠ "-"
  · rw [if_pos hc]
    intro h
    rw [← Option.some.inj h]
  · rw [if_neg hc]
    intro h
    simp at h

lemma example_emit_id (nfkd : Char → List Char) (name_col : Nat)
    (rp : List String × ExampleRow) (il : Nat × String) (ex : ExampleOut) :
    example_emit nfkd name_col rp il = some ex →
      ex.ID = il.2 ++ "-" ++ slug nfkd (cellAt rp.1 name_col) := by
  unfold example_emit
  by_cases hc : normalise_whitespace (cellAt rp.1 il.1) ≠ "" ∧
      normalise_whitespace (cellAt rp.1 il.1) ≠ "-"
  · rw [if_pos hc]
    intro h
    rw [← Option.some.inj h]
  · rw [if_neg hc]
    intro h
    simp at h

/-- C4 counterexample: two data rows labeled `"one"` and `"One"` fold to the
same parameter key; the validator accepts the sheet, yet the emitted value
table carries the identifier `"1-LX"` twice — value identifiers are not
unique for this validator-accepted input. -/
theorem C4_counterexample :
    validate_sheet nfkd_ascii
      [["", "Expressions", "LangX"], ["", "one", "eka"], ["", "One", "du"]]
      [("one", ⟨"1", "one"⟩)] ([] : List (String × ExampleRow)) = Except.ok () ∧
    make_values nfkd_ascii
      [["", "Expressions", "LangX"], ["", "one", "eka"], ["", "One", "du"]]
      [("one", ⟨"1", "one"⟩)] [("LangX", "LX")] (fun _ => []) =
      Except.ok [⟨"1-LX", "LX", "1", "eka", []⟩, ⟨"1-LX", "LX", "1", "du", []⟩] ∧
    ¬ (([(⟨"1-LX", "LX", "1", "eka", []⟩ : ValueOut), ⟨"1-LX", "LX", "1", "du", []⟩].map
        (fun v => v.ID)).Nodup) :=
  ⟨by decide, by decide, by decide⟩

/-- C4 amended: identifiers of the rows emitted from one sheet are unique
provided the matched parameter identifiers of its rows are pairwise
distinct, the folded-label slugs of its example-matching rows are pairwise
distinct, the language identifiers of its mapped columns are pairwise
distinct, and the identifier parts carrying the `-` separator prefix
(parameter ids for values, language ids for examples) are dash-free.  A
validator-accepted sheet with two rows of the same folded label violates
the original claim (`C4_counterexample`). -/
theorem C4_ids_unique :
    ∀ (nfkd : Char → List Char) (data : List (List String)) (header : List String)
      (rows : List (List String)) (p : List (String × ParameterRow))
      (e : List (String × ExampleRow)) (langs : List (String × String))
      (sheet : String) (ve : String × String → List String)
      (name_col : Nat) (vals : List ValueOut) (exs : List ExampleOut) (ds : List String),
      data = header :: rows →
      header.findIdx? (· == "Expressions") = some name_col →
      make_values nfkd data p langs ve = Except.ok vals →
      make_examples nfkd data e langs sheet = Except.ok (exs, ds) →
      ((data.filterMap (fun row => (dictGet p (fold_name nfkd (cellAt row name_col))).map
          (fun param_row => (row, param_row)))).map (fun rp => rp.2.id)).Nodup →
      (∀ rp ∈ data.filterMap (fun row => (dictGet p (fold_name nfkd (cellAt row name_col))).map
          (fun param_row => (row, param_row))), dash_free rp.2.id = true) →
      ((lg_cols_quiet langs header name_col).map (fun il => il.2)).Nodup →
      ((rows.filterMap (fun row => (dictGet e (fold_name nfkd (cellAt row name_col))).map
          (fun ex_row => (row, ex_row)))).map
        (fun rp => slug nfkd (cellAt rp.1 name_col))).Nodup →
      (((mk_lg_cols langs header name_col sheet).1).map (fun il => il.2)).Nodup →
      (∀ il ∈ (mk_lg_cols langs header name_col sheet).1, dash_free il.2 = true) →
      ((vals.map (fun v => v.ID)).Nodup ∧ (exs.map (fun ex => ex.ID)).Nodup) := by
  intro nfkd data header rows p e langs sheet ve name_col vals exs ds hdata hfind
    hmv hme hpn hpd hqn hen hmn hmd
  subst hdata
  constructor
  · have hveq : make_values nfkd (header :: rows) p langs ve =
        Except.ok (((header :: rows).filterMap (fun row =>
          (dictGet p (fold_name nfkd (cellAt row name_col))).map
            (fun param_row => (row, param_row)))).flatMap
          (fun rp => (lg_cols_quiet langs header name_col).filterMap
            (value_emit ve rp))) := by
      simp only [make_values, hfind]
    rw [hveq] at hmv
    injection hmv with hv
    rw [← hv]
    exact nodup_map_flatMap_filterMap (fun v => v.ID) (fun rp => rp.2.id)
      (fun il => il.2) (fun a b => a ++ "-" ++ b) _ _ _ hpn hqn
      (fun r _ c _ x hx => value_emit_id ve r c x hx)
      (fun r hrm r' hrm' c _ c' _ he =>
        dash_append_inj _ _ _ _ (hpd r hrm) (hpd r' hrm') he)
  · have heeq : make_examples nfkd (header :: rows) e langs sheet =
        Except.ok
          ((rows.filterMap (fun row =>
              (dictGet e (fold_name nfkd (cellAt row name_col))).map
                (fun ex_row => (row, ex_row)))).flatMap
            (fun rp => ((mk_lg_cols langs header name_col sheet).1).filterMap
              (example_emit nfkd name_col rp)),
          (mk_lg_cols langs header name_col sheet).2) := by
      simp only [make_examples, hfind]
    rw [heeq] at hme
    injection hme with hpair
    have hE := congrArg Prod.fst hpair
    simp only [] at hE
    rw [← hE]
    exact nodup_map_flatMap_filterMap (fun ex => ex.ID)
      (fun rp => slug nfkd (cellAt rp.1 name_col)) (fun il => il.2)
      (fun a b => b ++ "-" ++ a) _ _ _ hen hmn
      (fun r _ c _ x hx => example_emit_id nfkd name_col r c x hx)
      (fun r _ r' _ c hcm c' hcm' he =>
        (dash_append_inj _ _ _ _ (hmd c hcm) (hmd c' hcm') he).symm)

lemma char_ofNat_toNat (n : Nat) (h1 : 97 ≤ n) (h2 : n ≤ 122) :
    (Char.ofNat n).toNat = n := by
  interval_cases n <;> decide

lemma pyLower_spec (c : Char) (h : pyIsAsciiAlnum c = true) :
    pyIsAsciiAlnum (pyLower c) = true ∧ pyLower (pyLower c) = pyLower c ∧
      (pyLower c).toNat < 128 := by
  have hn : (48 ≤ c.toNat ∧ c.toNat ≤ 57) ∨ (65 ≤ c.toNat ∧ c.toNat ≤ 90) ∨
      (97 ≤ c.toNat ∧ c.toNat ≤ 122) := of_decide_eq_true h
  by_cases hc : 65 ≤ c.toNat ∧ c.toNat ≤ 90
  · have htn : (Char.ofNat (c.toNat + 32)).toNat = c.toNat + 32 :=
      char_ofNat_toNat _ (by omega) (by omega)
    have hpl : pyLower c = Char.ofNat (c.toNat + 32) := by
      unfold pyLower
      rw [if_pos hc]
    refine ⟨?_, ?_, ?_⟩
    · rw [hpl]
      unfold pyIsAsciiAlnum
      rw [decide_eq_true_eq, htn]
      omega
    · rw [hpl]
      unfold pyLower
      rw [if_neg (by rw [htn]; omega)]
    · rw [hpl, htn]
      omega
  · have hpl : pyLower c = c := by
      unfold pyLower
      rw [if_neg hc]
    refine ⟨by rw [hpl]; exact h, by rw [hpl, hpl], ?_⟩
    rw [hpl]
    rcases hn with h1 | h2 | h3 <;> omega

lemma slugChars_of_fixed (d : Char → List Char)
    (hd : ∀ c : Char, c.toNat < 128 → d c = [c]) :
    ∀ l : List Char,
      (∀ c ∈ l, pyIsAsciiAlnum c = true ∧ pyLower c = c ∧ c.toNat < 128) →
      slugChars d true l = l := by
  intro l
  induction l with
  | nil =>
    intro _
    rfl
  | cons c cs ih =>
    intro hl
    have hc := hl c (List.mem_cons_self _ _)
    have ihcs := ih (fun x hx => hl x (List.mem_cons_of_mem _ hx))
    unfold slugChars at ihcs ⊢
    rw [List.flatMap_cons, hd c hc.2.2, List.singleton_append,
      List.filter_cons_of_pos hc.1, List.map_cons, ihcs]
    simp [hc.2.1]

lemma slugChars_chars_good (d : Char → List Char) (l : List Char) :
    ∀ c ∈ slugChars d true l, pyIsAsciiAlnum c = true ∧ pyLower c = c ∧ c.toNat < 128 := by
  intro c hc
  unfold slugChars at hc
  obtain ⟨c', hc', heq⟩ := List.mem_map.mp hc
  have hfil := (List.mem_filter.mp hc').2
  have hspec := pyLower_spec c' hfil
  have heq' : pyLower c' = c := by simpa using heq
  rw [← heq']
  exact ⟨hspec.1, hspec.2.1, hspec.2.2⟩

lemma slug_idem (d : Char → List Char) (hd : ∀ c : Char, c.toNat < 128 → d c = [c])
    (x : String) : slug d (slug d x) = slug d x := by
  unfold slug slug_gen
  exact congrArg String.mk (slugChars_of_fixed d hd _ (slugChars_chars_good d x.data))

lemma dictGet_mem {α : Type} : ∀ (l : List (String × α)) (k : String) (v : α),
    dictGet l k = some v → (k, v) ∈ l := by
  intro l
  induction l with
  | nil =>
    intro k v h
    simp [dictGet] at h
  | cons p rest ih =>
    intro k v h
    rw [dictGet] at h
    rcases hr : dictGet rest k with _ | w
    · rw [hr] at h
      by_cases hk : p.1 = k
      · rw [if_pos hk] at h
        have hv : p.2 = v := Option.some.inj h
        exact List.mem_cons.mpr (Or.inl (by rw [Prod.ext_iff]; exact ⟨hk.symm, hv.symm⟩))
      · rw [if_neg hk] at h
        simp at h
    · rw [hr] at h
      have hw : w = v := Option.some.inj h
      exact List.mem_cons_of_mem _ (ih k v (by rw [hr, hw]))

lemma typo_values_good :
    TYPO_MAP.all (fun kv =>
      (kv.2.data.all (fun c => pyIsAsciiAlnum c && (pyLower c == c) &&
        decide (c.toNat < 128))) && (dictGet TYPO_MAP kv.2).isNone) = true := by
  decide

/-- C8: label folding is idempotent, for every decomposition function that
(like Unicode NFKD) maps each ASCII character to itself:
`fold_name(fold_name(x)) = fold_name(x)`.  The slug of a slug is itself
(slug output is lowercase ASCII alphanumeric, on which the decomposition,
the ASCII-alphanumeric filter and lowercasing are all the identity), and no
value of the typo-correction table is itself a key of the table. -/
theorem C8_fold_idempotent :
    ∀ d : Char → List Char, (∀ c : Char, c.toNat < 128 → d c = [c]) →
      ∀ x : String, fold_name d (fold_name d x) = fold_name d x := by
  intro d hd x
  rcases ht : dictGet TYPO_MAP (slug d x) with _ | v
  · have hinner : fold_name d x = slug d x := by
      unfold fold_name
      rw [ht]
    rw [hinner]
    unfold fold_name
    rw [slug_idem d hd x, ht]
  · have hinner : fold_name d x = v := by
      unfold fold_name
      rw [ht]
    rw [hinner]
    have hvmem : (slug d x, v) ∈ TYPO_MAP := dictGet_mem TYPO_MAP (slug d x) v ht
    have hall := List.all_eq_true.mp typo_values_good _ hvmem
    rw [Bool.and_eq_true] at hall
    obtain ⟨hchars, hnone⟩ := hall
    have hgood : ∀ c ∈ v.data, pyIsAsciiAlnum c = true ∧ pyLower c = c ∧ c.toNat < 128 := by
      intro c hcm
      have hcc := List.all_eq_true.mp hchars c hcm
      rw [Bool.and_eq_true, Bool.and_eq_true] at hcc
      exact ⟨hcc.1.1, eq_of_beq hcc.1.2, of_decide_eq_true hcc.2⟩
    have hslugv : slug d v = v := by
      unfold slug slug_gen
      rw [slugChars_of_fixed d hd v.data hgood]
    unfold fold_name
    rw [hslugv]
    have hnone' : (dictGet TYPO_MAP v).isNone = true := hnone
    rcases hN : dictGet TYPO_MAP v with _ | w
    · rfl
    · rw [hN] at hnone'
      simp at hnone'

theorem C8_fold_idempotent_witness :
    fold_name nfkd_ascii (fold_name nfkd_ascii "Twelvth!") =
      fold_name nfkd_ascii "Twelvth!" :=
  C8_fold_idempotent nfkd_ascii (fun _ _ => rfl) "Twelvth!"

theorem C4_ids_unique_witness :
    (([(⟨"1-LX", "LX", "1", "eka", []⟩ : ValueOut)].map (fun v => v.ID)).Nodup ∧
      (([] : List ExampleOut).map (fun ex => ex.ID)).Nodup) :=
  C4_ids_unique nfkd_ascii [["", "Expressions", "LangX"], ["", "one", "eka"]]
    ["", "Expressions", "LangX"] [["", "one", "eka"]]
    [("one", ⟨"1", "one"⟩)] ([] : List (String × ExampleRow)) [("LangX", "LX")] "F"
    (fun _ => []) 1 [⟨"1-LX", "LX", "1", "eka", []⟩] [] []
    rfl (by decide) (by decide) (by decide) (by decide) (by decide) (by decide)
    (by decide) (by decide) (by decide)

end Mamta
